import Mathlib

/-!
Verification of the Codex MCP core module (`src/mcp/codex-core.ts`):
a shallow embedding of its data model and operations, with theorems
settling the specification's claims about them.

Conventions of the embedding:
* JavaScript strings are Lean `String`s; machine numbers that the code
  treats as integers are `Int`/`Nat`.
* `JSON.parse` is embedded as an executable JSON parser (`jsonParse`)
  over the JSON grammar accepted by the JavaScript built-in; a line that
  the built-in rejects is a line on which `jsonParse` returns `none`.
* Fallible platform calls (`statSync`, `readFileSync`, `resolve`) are
  fields of an explicit environment returning `Option`; `none` models a
  thrown exception, caught by the embedded `try`/`catch`.
-/

namespace CodexCore

/-! ## JSON values

A JSON value as produced by `JSON.parse`.  Numbers keep their source
lexeme: the code under verification never computes with a number, it
only tests truthiness (zero-ness) and occasionally stringifies one. -/

inductive Json where
  | null : Json
  | bool (b : Bool) : Json
  | num (lexeme : String) : Json
  | str (s : String) : Json
  | arr (elems : List Json) : Json
  | obj (fields : List (String × Json)) : Json

/-- Property access `j["k"]` on a parsed JSON value: on an object, the
last binding for the key wins (as in `JSON.parse` with duplicate keys);
on anything else the access yields `undefined`, modelled `none`. -/
def getField (j : Json) (k : String) : Option Json :=
  match j with
  | .obj fields => (fields.reverse.find? (fun p => p.1 = k)).map (·.2)
  | _ => none

/-- Whether a JSON number lexeme denotes the value zero: true exactly
when every digit of its significand (the part before any exponent) is
`0`. -/
def numIsZero (lexeme : String) : Bool :=
  (lexeme.toList.takeWhile (fun c => c ≠ 'e' ∧ c ≠ 'E')).all
    (fun c => ¬ c.isDigit ∨ c = '0')

/-- JavaScript truthiness of a parsed JSON value. -/
def jsTruthy (j : Json) : Bool :=
  match j with
  | .null => false
  | .bool b => b
  | .num lexeme => ¬ numIsZero lexeme
  | .str s => s ≠ ""
  | .arr _ => true
  | .obj _ => true

/-- Truthiness of a property access result (`undefined` is falsy). -/
def jsTruthyOpt (o : Option Json) : Bool :=
  match o with
  | none => false
  | some j => jsTruthy j

/-- Strict equality `v === "s"` of a property access result with a
string literal. -/
def isStrEq (o : Option Json) (s : String) : Bool :=
  match o with
  | some (.str t) => t = s
  | _ => false

mutual

/-- `String(v)` as applied by `Array.prototype.join` to a pushed value.
Strings pass through unchanged; `null` inside an array joins as the
empty string.  Number-to-string conversion for non-integral or huge
values follows IEEE-754 shortest-representation rules that have no
exact integer model; the code under verification only ever pushes
string fragments, so those cases are modelled by the lexeme itself. -/
def jsToString (j : Json) : String :=
  match j with
  | .null => "null"
  | .bool b => if b then "true" else "false"
  | .num lexeme => lexeme
  | .str s => s
  | .arr elems => String.intercalate "," (jsJoinParts elems)
  | .obj _ => "[object Object]"

/-- The per-element conversions of `Array.prototype.join`: `null`
joins as the empty string. -/
def jsJoinParts (elems : List Json) : List String :=
  match elems with
  | [] => []
  | .null :: rest => "" :: jsJoinParts rest
  | j :: rest => jsToString j :: jsJoinParts rest

end

/-! ## The JSON parser (the semantics of `JSON.parse` on one line)

A recursive-descent parser over the character list, fuelled for
termination.  It accepts exactly the JSON grammar: a single value
surrounded by optional JSON whitespace. -/

/-- JSON insignificant whitespace. -/
def isJsonWs (c : Char) : Bool :=
  c = ' ' ∨ c = '\t' ∨ c = '\n' ∨ c = '\r'

def skipWs (cs : List Char) : List Char :=
  cs.dropWhile isJsonWs

def isHexDigit (c : Char) : Bool :=
  c.isDigit ∨ ('a' ≤ c ∧ c ≤ 'f') ∨ ('A' ≤ c ∧ c ≤ 'F')

def hexVal (c : Char) : Nat :=
  if c.isDigit then c.toNat - '0'.toNat
  else if 'a' ≤ c ∧ c ≤ 'f' then c.toNat - 'a'.toNat + 10
  else c.toNat - 'A'.toNat + 10

/-- Decode the four hex digits of a `\uXXXX` escape. -/
def hex4 (cs : List Char) : Option (Nat × List Char) :=
  match cs with
  | c1 :: c2 :: c3 :: c4 :: rest =>
    if isHexDigit c1 ∧ isHexDigit c2 ∧ isHexDigit c3 ∧ isHexDigit c4 then
      some (((hexVal c1 * 16 + hexVal c2) * 16 + hexVal c3) * 16 + hexVal c4, rest)
    else none
  | _ => none

/-- Parse the body of a JSON string after the opening quote, returning
the decoded characters and the input past the closing quote.  A lone
UTF-16 surrogate (which a JavaScript string can hold but a Lean `Char`
cannot) decodes to U+FFFD; the code under verification never produces
one. -/
def parseStringBody (fuel : Nat) (cs : List Char) : Option (List Char × List Char) :=
  match fuel with
  | 0 => none
  | fuel + 1 =>
    match cs with
    | [] => none
    | '"' :: rest => some ([], rest)
    | '\\' :: esc :: rest =>
      let simple : Option (Char × List Char) :=
        match esc with
        | '"' => some ('"', rest)
        | '\\' => some ('\\', rest)
        | '/' => some ('/', rest)
        | 'b' => some ('\x08', rest)
        | 'f' => some ('\x0c', rest)
        | 'n' => some ('\n', rest)
        | 'r' => some ('\r', rest)
        | 't' => some ('\t', rest)
        | _ => none
      match simple with
      | some (c, rest') =>
        (parseStringBody fuel rest').map (fun (body, rem) => (c :: body, rem))
      | none =>
        if esc = 'u' then
          match hex4 rest with
          | none => none
          | some (n, rest') =>
            if 0xD800 ≤ n ∧ n ≤ 0xDBFF then
              match rest' with
              | '\\' :: 'u' :: tail =>
                match hex4 tail with
                | some (m, rest'') =>
                  if 0xDC00 ≤ m ∧ m ≤ 0xDFFF then
                    let code := 0x10000 + (n - 0xD800) * 0x400 + (m - 0xDC00)
                    (parseStringBody fuel rest'').map
                      (fun (body, rem) => (Char.ofNat code :: body, rem))
                  else
                    (parseStringBody fuel rest').map
                      (fun (body, rem) => ('�' :: body, rem))
                | none =>
                  (parseStringBody fuel rest').map
                    (fun (body, rem) => ('�' :: body, rem))
              | _ =>
                (parseStringBody fuel rest').map
                  (fun (body, rem) => ('�' :: body, rem))
            else if 0xDC00 ≤ n ∧ n ≤ 0xDFFF then
              (parseStringBody fuel rest').map
                (fun (body, rem) => ('�' :: body, rem))
            else
              (parseStringBody fuel rest').map
                (fun (body, rem) => (Char.ofNat n :: body, rem))
        else none
    | c :: rest =>
      if c.toNat < 0x20 then none
      else (parseStringBody fuel rest).map (fun (body, rem) => (c :: body, rem))

/-- Parse a JSON number at the head of the input, returning its lexeme. -/
def parseNumber (cs : List Char) : Option (String × List Char) :=
  let (sign, cs1) :=
    match cs with
    | '-' :: rest => (['-'], rest)
    | _ => (([] : List Char), cs)
  let intPart : Option (List Char × List Char) :=
    match cs1 with
    | '0' :: rest => some (['0'], rest)
    | c :: _ =>
      if c.isDigit then
        some (cs1.takeWhile Char.isDigit, cs1.dropWhile Char.isDigit)
      else none
    | [] => none
  match intPart with
  | none => none
  | some (ds, cs2) =>
    let fracPart : Option (List Char × List Char) :=
      match cs2 with
      | '.' :: rest =>
        let fds := rest.takeWhile Char.isDigit
        if fds = [] then none
        else some ('.' :: fds, rest.dropWhile Char.isDigit)
      | _ => some ([], cs2)
    match fracPart with
    | none => none
    | some (fs, cs3) =>
      let expPart : Option (List Char × List Char) :=
        match cs3 with
        | e :: rest =>
          if e = 'e' ∨ e = 'E' then
            let (sgn, rest1) :=
              match rest with
              | '+' :: r => (['+'], r)
              | '-' :: r => (['-'], r)
              | _ => (([] : List Char), rest)
            let eds := rest1.takeWhile Char.isDigit
            if eds = [] then none
            else some (e :: (sgn ++ eds), rest1.dropWhile Char.isDigit)
          else some ([], cs3)
        | [] => some ([], cs3)
      match expPart with
      | none => none
      | some (es, cs4) =>
        some (String.mk (sign ++ ds ++ fs ++ es), cs4)

mutual

/-- Parse one JSON value (after skipping leading whitespace). -/
def parseValue (fuel : Nat) (cs : List Char) : Option (Json × List Char) :=
  match fuel with
  | 0 => none
  | fuel + 1 =>
    match skipWs cs with
    | 'n' :: 'u' :: 'l' :: 'l' :: rest => some (.null, rest)
    | 't' :: 'r' :: 'u' :: 'e' :: rest => some (.bool true, rest)
    | 'f' :: 'a' :: 'l' :: 's' :: 'e' :: rest => some (.bool false, rest)
    | '"' :: rest =>
      (parseStringBody (rest.length + 1) rest).map
        (fun (body, rem) => (.str (String.mk body), rem))
    | '[' :: rest =>
      (match skipWs rest with
       | ']' :: rest' => some (.arr [], rest')
       | _ => (parseElems fuel rest).map (fun (es, rem) => (.arr es, rem)))
    | '{' :: rest =>
      (match skipWs rest with
       | '}' :: rest' => some (.obj [], rest')
       | _ => (parseMembers fuel rest).map (fun (fs, rem) => (.obj fs, rem)))
    | cs' => (parseNumber cs').map (fun (lexeme, rem) => (.num lexeme, rem))

/-- Parse the comma-separated elements of a non-empty array, consuming
the closing bracket. -/
def parseElems (fuel : Nat) (cs : List Char) : Option (List Json × List Char) :=
  match fuel with
  | 0 => none
  | fuel + 1 =>
    match parseValue fuel cs with
    | none => none
    | some (v, rest) =>
      match skipWs rest with
      | ',' :: rest' =>
        (parseElems fuel rest').map (fun (es, rem) => (v :: es, rem))
      | ']' :: rest' => some ([v], rest')
      | _ => none

/-- Parse the comma-separated members of a non-empty object, consuming
the closing brace. -/
def parseMembers (fuel : Nat) (cs : List Char) :
    Option (List (String × Json) × List Char) :=
  match fuel with
  | 0 => none
  | fuel + 1 =>
    match skipWs cs with
    | '"' :: rest =>
      match parseStringBody (rest.length + 1) rest with
      | none => none
      | some (key, rest1) =>
        match skipWs rest1 with
        | ':' :: rest2 =>
          match parseValue fuel rest2 with
          | none => none
          | some (v, rest3) =>
            match skipWs rest3 with
            | ',' :: rest4 =>
              (parseMembers fuel rest4).map
                (fun (fs, rem) => ((String.mk key, v) :: fs, rem))
            | '}' :: rest4 => some ([(String.mk key, v)], rest4)
            | _ => none
        | _ => none
    | _ => none

end

/-- The semantics of `JSON.parse` on one input string: a single JSON
value surrounded by optional whitespace, or failure. -/
def jsonParse (s : String) : Option Json :=
  let cs := s.toList
  match parseValue (cs.length + 1) cs with
  | none => none
  | some (v, rest) => if skipWs rest = [] then some v else none

/-! ## The output parser (`parseCodexOutput`)

```
export function parseCodexOutput(output: string): string {
  const lines = output.trim().split('\n').filter(l => l.trim());
  const messages: string[] = [];
  for (const line of lines) { try { ... } catch { } }
  return messages.join('\n') || output;
}
```

The per-line `try` body pushes fragments onto `messages`; a thrown
`TypeError` (property access on `null`) aborts the rest of that line's
processing but keeps fragments already pushed.  `captureEvent` returns
exactly the fragments one line contributes, in push order. -/

/-- Process the parts of an array-valued `event.content`: each part
with `part.type === 'text'` and truthy `part.text` contributes
`part.text`.  A `null` part throws at `part.type` (second component
`true`), ending the whole line's processing. -/
def captureParts (parts : List Json) : List String × Bool :=
  match parts with
  | [] => ([], false)
  | .null :: _ => ([], true)
  | p :: rest =>
    let here :=
      if isStrEq (getField p "type") "text" ∧ jsTruthyOpt (getField p "text") then
        [jsToString ((getField p "text").getD .null)]
      else []
    let (more, aborted) := captureParts rest
    (here ++ more, aborted)

/-- The fragments a single successfully decoded line pushes onto
`messages`.  A decoded `null` throws at `event.type` before pushing
anything; an abort inside the parts loop suppresses the subsequent
`output_text` check. -/
def captureEvent (j : Json) : List String :=
  match j with
  | .null => []
  | _ =>
    let (msgStrs, aborted) :=
      if isStrEq (getField j "type") "message" ∧ jsTruthyOpt (getField j "content") then
        match getField j "content" with
        | some (.str s) => ([s], false)
        | some (.arr parts) => captureParts parts
        | _ => (([] : List String), false)
      else (([] : List String), false)
    if aborted then msgStrs
    else
      msgStrs ++
        (if isStrEq (getField j "type") "output_text" ∧ jsTruthyOpt (getField j "text") then
          [jsToString ((getField j "text").getD .null)]
        else [])

/-- The fragments one line contributes: none when `JSON.parse` throws. -/
def captureLine (line : String) : List String :=
  match jsonParse line with
  | none => []
  | some j => captureEvent j

/-- The characters removed by `String.prototype.trim` (ECMAScript
WhiteSpace and LineTerminator). -/
def isJsTrimWs (c : Char) : Bool :=
  c = ' ' ∨ c = '\t' ∨ c = '\n' ∨ c = '\r' ∨ c = '\x0b' ∨ c = '\x0c' ∨
  c = Char.ofNat 0xa0 ∨ (0x2000 ≤ c.toNat ∧ c.toNat ≤ 0x200a) ∨
  c = Char.ofNat 0x2028 ∨ c = Char.ofNat 0x2029 ∨ c = Char.ofNat 0x202f ∨
  c = Char.ofNat 0x205f ∨ c = Char.ofNat 0x3000 ∨ c = Char.ofNat 0x1680 ∨
  c = Char.ofNat 0xfeff

/-- `String.prototype.trim` on a character list. -/
def jsTrimChars (cs : List Char) : List Char :=
  ((cs.dropWhile isJsTrimWs).reverse.dropWhile isJsTrimWs).reverse

/-- `String.prototype.trim`. -/
def jsTrim (s : String) : String :=
  String.mk (jsTrimChars s.toList)

/-- `String.prototype.split('\n')`: the empty input yields one empty
chunk, as in JavaScript. -/
def splitLines (cs : List Char) : List (List Char) :=
  match cs with
  | [] => [[]]
  | '\n' :: rest => [] :: splitLines rest
  | c :: rest =>
    match splitLines rest with
    | l :: ls => (c :: l) :: ls
    | [] => [[c]]

/-- `Array.prototype.join(sep)` on an array of strings. -/
def jsJoin (sep : String) (xs : List String) : String :=
  match xs with
  | [] => ""
  | [x] => x
  | x :: rest => x ++ sep ++ jsJoin sep rest

/-- The line list `output.trim().split('\n').filter(l => l.trim())`. -/
def codexLines (output : String) : List String :=
  ((splitLines (jsTrimChars output.toList)).map String.mk).filter
    (fun l => jsTrimChars l.toList ≠ [])

/-- Parse Codex JSONL output to extract the final text response
(`parseCodexOutput` in `codex-core.ts`). -/
def parseCodexOutput (output : String) : String :=
  let messages := ((codexLines output).map captureLine).flatten
  let joined := jsJoin "\n" messages
  if joined = "" then output else joined

/-! ## Configuration read from the environment

```
export const CODEX_DEFAULT_MODEL = process.env.OMC_CODEX_DEFAULT_MODEL || 'gpt-5.2';
export const CODEX_TIMEOUT = Math.min(Math.max(5000,
  parseInt(process.env.OMC_CODEX_TIMEOUT || '180000', 10) || 180000), 600000);
```
An environment variable is `Option String` (`none` = unset). -/

/-- `parseInt(s, 10)`: skip leading whitespace, optional sign, then the
longest prefix of decimal digits; no digit at all is `NaN`, modelled
`none`. -/
def parseIntJs (s : String) : Option Int :=
  let cs := s.toList.dropWhile isJsTrimWs
  let (neg, cs1) :=
    match cs with
    | '-' :: rest => (true, rest)
    | '+' :: rest => (false, rest)
    | _ => (false, cs)
  let digits := cs1.takeWhile Char.isDigit
  if digits = [] then none
  else
    let n : Nat := digits.foldl (fun acc c => acc * 10 + (c.toNat - '0'.toNat)) 0
    some (if neg then -(n : Int) else (n : Int))

/-- `env || 'default'`: an unset or empty variable falls back. -/
def envOr (v : Option String) (dflt : String) : String :=
  match v with
  | none => dflt
  | some s => if s = "" then dflt else s

/-- `CODEX_DEFAULT_MODEL` as a function of `OMC_CODEX_DEFAULT_MODEL`. -/
def CODEX_DEFAULT_MODEL (env : Option String) : String :=
  envOr env "gpt-5.2"

/-- `CODEX_TIMEOUT` as a function of `OMC_CODEX_TIMEOUT`
(`parseInt(...) || 180000` treats both `NaN` and `0` as absent). -/
def CODEX_TIMEOUT (env : Option String) : Int :=
  let parsed : Int :=
    match parseIntJs (envOr env "180000") with
    | none => 180000
    | some n => if n = 0 then 180000 else n
  min (max 5000 parsed) 600000

def MAX_CONTEXT_FILES : Nat := 20

/-- 5 MB per file (`5 * 1024 * 1024`). -/
def MAX_FILE_SIZE : Nat := 5 * 1024 * 1024

def CODEX_VALID_ROLES : List String :=
  ["architect", "planner", "critic", "code-reviewer", "security-reviewer"]

/-! ## The process orchestrator (`executeCodex`)

The body of `executeCodex` installs five callbacks around one spawned
child: a timeout timer, stdout/stderr `data` accumulators, a `close`
handler, a process `error` handler and a stdin `error` handler.  Its
run is embedded as a state machine: `State` holds the closure variables
(`settled`, the accumulated `stdout`/`stderr`, whether `clearTimeout`
ran, the kill signals sent, and the promise's settlement), and `step`
is the callback the event loop runs for each arriving event.  The
event loop delivers the events of one invocation in some sequence; the
theorems quantify over all sequences. -/

/-- The settlement of the promise returned by `executeCodex`. -/
inductive Outcome where
  | resolved (value : String) : Outcome
  | rejected (message : String) : Outcome
deriving DecidableEq

/-- An event one invocation's callbacks can receive.  `close` carries
the exit code (`none` = `null`); the `data` events carry chunks. -/
inductive Event where
  | stdoutData (chunk : String) : Event
  | stderrData (chunk : String) : Event
  | timeout : Event
  | close (code : Option Int) : Event
  | spawnError (message : String) : Event
  | stdinError (message : String) : Event
deriving DecidableEq

/-- The four terminal event sources that race to settle the promise. -/
def isTerminal (e : Event) : Bool :=
  match e with
  | .stdoutData _ => false
  | .stderrData _ => false
  | _ => true

/-- The closure state of one `executeCodex` invocation. -/
structure State where
  settled : Bool
  stdout : String
  stderr : String
  timeoutCleared : Bool
  kills : List String
  outcome : Option Outcome
deriving DecidableEq

/-- The state when the promise executor has just run. -/
def initState : State :=
  { settled := false, stdout := "", stderr := "", timeoutCleared := false,
    kills := [], outcome := none }

/-- `${code}` for `code: number | null`. -/
def codeToString (code : Option Int) : String :=
  match code with
  | none => "null"
  | some n => toString n

/-- The `close` handler's settlement:
`code === 0 || stdout.trim()` resolves with the parsed stdout,
otherwise rejects with the exit code and `stderr || 'No output'`. -/
def closeOutcome (code : Option Int) (stdout stderr : String) : Outcome :=
  if code = some 0 ∨ jsTrim stdout ≠ "" then
    .resolved (parseCodexOutput stdout)
  else
    .rejected ("Codex exited with code " ++ codeToString code ++ ": " ++
      (if stderr = "" then "No output" else stderr))

/-- One callback invocation: the handlers of `executeCodex`, each
guarded by `if (!settled)`.  `timeoutMs` is the `CODEX_TIMEOUT` value
named in the timeout message. -/
def step (timeoutMs : Int) (st : State) (e : Event) : State :=
  match e with
  | .stdoutData chunk => { st with stdout := st.stdout ++ chunk }
  | .stderrData chunk => { st with stderr := st.stderr ++ chunk }
  | .timeout =>
    if st.settled then st
    else
      { st with
          settled := true
          kills := st.kills ++ ["SIGTERM"]
          outcome := some (.rejected
            ("Codex timed out after " ++ toString timeoutMs ++ "ms")) }
  | .close code =>
    if st.settled then st
    else
      { st with
          settled := true
          timeoutCleared := true
          outcome := some (closeOutcome code st.stdout st.stderr) }
  | .spawnError msg =>
    if st.settled then st
    else
      { st with
          settled := true
          timeoutCleared := true
          kills := st.kills ++ ["SIGTERM"]
          outcome := some (.rejected ("Failed to spawn Codex CLI: " ++ msg)) }
  | .stdinError msg =>
    if st.settled then st
    else
      { st with
          settled := true
          timeoutCleared := true
          kills := st.kills ++ ["SIGTERM"]
          outcome := some (.rejected ("Stdin write error: " ++ msg)) }

/-- Deliver a sequence of events to the invocation's callbacks. -/
def run (timeoutMs : Int) (st : State) (events : List Event) : State :=
  match events with
  | [] => st
  | e :: rest => run timeoutMs (step timeoutMs st e) rest

/-! ## The context assembler (`validateAndReadFile`)

The platform calls are an explicit environment: `resolve` is
`path.resolve`, `stat` is `statSync`, `read` is `readFileSync(·,
'utf-8')`; `none` models a thrown exception, caught by the function's
`try`/`catch`.  A runtime value passed as the path is either a string
or (`typeof filePath !== 'string'`) something else, carried with its
string interpolation. -/

/-- What `statSync` reports, as used by the code. -/
structure FileStats where
  isFile : Bool
  size : Nat
deriving DecidableEq

/-- The filesystem-facing platform calls. -/
structure FsEnv where
  resolve : String → Option String
  stat : String → Option FileStats
  read : String → Option String

/-- A runtime path argument: a string, or a non-string value carried
with its template-literal interpolation `${filePath}`. -/
inductive JsPath where
  | str (s : String) : JsPath
  | nonString (display : String) : JsPath
deriving DecidableEq

/-- `${filePath}`. -/
def JsPath.display : JsPath → String
  | .str s => s
  | .nonString d => d

/-- `(stats.size / 1024 / 1024).toFixed(1)`: the two divisions by
powers of two are exact in IEEE-754, and `toFixed` rounds the exact
value `size / 2^20` half-up to one decimal place. -/
def sizeToFixed1 (size : Nat) : String :=
  let n := (10 * size + 524288) / 1048576
  toString (n / 10) ++ "." ++ toString (n % 10)

/-- Validate and read a file for context inclusion
(`validateAndReadFile` in `codex-core.ts`). -/
def validateAndReadFile (fs : FsEnv) (filePath : JsPath) : String :=
  match filePath with
  | .nonString d => "--- File: " ++ d ++ " --- (Invalid path type)"
  | .str p =>
    match fs.resolve p with
    | none => "--- File: " ++ p ++ " --- (Error reading file)"
    | some resolved =>
      match fs.stat resolved with
      | none => "--- File: " ++ p ++ " --- (Error reading file)"
      | some stats =>
        if ¬ stats.isFile then
          "--- File: " ++ p ++ " --- (Not a regular file)"
        else if stats.size > MAX_FILE_SIZE then
          "--- File: " ++ p ++ " --- (File too large: " ++
            sizeToFixed1 stats.size ++ "MB, max 5MB)"
        else
          match fs.read resolved with
          | none => "--- File: " ++ p ++ " --- (Error reading file)"
          | some content => "--- File: " ++ p ++ " ---\n" ++ content

/-! ## The tool handler (`handleAskCodex`)

`handleAskCodex` calls three collaborators whose sources live outside
the module: `detectCodexCli` (cli-detection), `resolveSystemPrompt` and
`buildPromptWithSystemContext` (prompt-injection), plus the platform
filesystem and the awaited `executeCodex`.  They enter the embedding as
an explicit environment. -/

/-- Modelled from the spec: the result of the availability check
`detectCodexCli()` (the engine "not found/runnable: reported with a
diagnostic and install guidance"); its implementation is outside this
module. -/
structure Detection where
  available : Bool
  error : String
  installHint : String

/-- One `{ type: 'text', text }` content block of a tool response. -/
structure ContentBlock where
  type : String
  text : String
deriving DecidableEq

/-- The tool response envelope; a missing `isError` field is `false`. -/
structure ToolResponse where
  content : List ContentBlock
  isError : Bool
deriving DecidableEq

/-- The `ask_codex` request arguments.  `context_files` elements are
runtime values that may fail the `typeof` check, hence `JsPath`. -/
structure AskArgs where
  prompt : String
  agent_role : String
  model : Option String
  context_files : Option (List JsPath)

/-- Modelled from the spec: `buildPromptWithSystemContext`
(prompt-injection, outside this module) concatenates "system
instructions first, then file context block (omitted entirely if no
files were supplied), then the user prompt", separated by blank
lines. -/
def buildPromptWithSystemContext (prompt : String) (fileContext : Option String)
    (systemPrompt : String) : String :=
  (if systemPrompt = "" then "" else systemPrompt ++ "\n\n") ++
  (match fileContext with
   | some c => c ++ "\n\n"
   | none => "") ++
  prompt

/-- The collaborators `handleAskCodex` calls: the configured default
model, the availability check, the system-prompt resolution (modelled
from the spec: a pure lookup of the role's instructions, outside this
module), the filesystem, and the awaited `executeCodex` (`Except.error`
is a rejected promise caught by the handler's `try`/`catch`). -/
structure ToolEnv where
  defaultModel : String
  detection : Detection
  resolveSystemPrompt : String → String
  fs : FsEnv
  execute : String → String → Except String String

/-- The tail of the handler after validation: compose the prompt, run
the engine, wrap the result (`try { ... } catch (err) { ... }`). -/
def finishAsk (env : ToolEnv) (prompt model systemPrompt : String)
    (fileContext : Option String) : ToolResponse :=
  let fullPrompt := buildPromptWithSystemContext prompt fileContext systemPrompt
  match env.execute fullPrompt model with
  | .ok response => { content := [⟨"text", response⟩], isError := false }
  | .error msg =>
    { content := [⟨"text", "Codex CLI error: " ++ msg⟩], isError := true }

/-- Handle an `ask_codex` tool invocation (`handleAskCodex` in
`codex-core.ts`). -/
def handleAskCodex (env : ToolEnv) (args : AskArgs) : ToolResponse :=
  let model := (args.model).getD env.defaultModel
  if args.agent_role = "" ∨ ¬ CODEX_VALID_ROLES.contains args.agent_role then
    { content := [⟨"text",
        "Invalid agent_role: \"" ++ args.agent_role ++
        "\". Codex requires one of: " ++ jsJoin ", " CODEX_VALID_ROLES⟩]
      isError := true }
  else if ¬ env.detection.available then
    { content := [⟨"text",
        "Codex CLI is not available: " ++ env.detection.error ++ "\n\n" ++
        env.detection.installHint⟩]
      isError := true }
  else
    let systemPrompt := env.resolveSystemPrompt args.agent_role
    match args.context_files with
    | none => finishAsk env args.prompt model systemPrompt none
    | some files =>
      if files.length > 0 then
        if files.length > MAX_CONTEXT_FILES then
          { content := [⟨"text",
              "Too many context files (max " ++ toString MAX_CONTEXT_FILES ++
              ", got " ++ toString files.length ++ ")"⟩]
            isError := true }
        else
          finishAsk env args.prompt model systemPrompt
            (some (jsJoin "\n\n" (files.map (validateAndReadFile env.fs))))
      else finishAsk env args.prompt model systemPrompt none

/-! ## Helper lemmas -/

theorem flatten_map_eq_nil {α β : Type} (f : α → List β) (xs : List α)
    (h : ∀ x ∈ xs, f x = []) : (xs.map f).flatten = [] := by
  induction xs with
  | nil => rfl
  | cons a as ih =>
    simp only [List.map_cons, List.flatten_cons, ih (fun x hx => h x (List.mem_cons_of_mem a hx)),
      h a (List.mem_cons_self a as), List.nil_append]

theorem run_append (t : Int) (st : State) (a b : List Event) :
    run t st (a ++ b) = run t (run t st a) b := by
  induction a generalizing st with
  | nil => rfl
  | cons e rest ih => simpa only [List.cons_append, run] using ih (step t st e)

theorem step_settled_terminal (t : Int) (st : State) (e : Event)
    (hs : st.settled = true) (ht : isTerminal e = true) :
    step t st e = st := by
  cases e <;> simp_all [step, isTerminal]

theorem step_preserves_settled_fields (t : Int) (st : State) (e : Event)
    (hs : st.settled = true) :
    (step t st e).settled = true ∧ (step t st e).outcome = st.outcome ∧
    (step t st e).kills = st.kills := by
  cases e <;> simp_all [step]

theorem run_preserves_settled_fields (t : Int) (st : State) (evs : List Event)
    (hs : st.settled = true) :
    (run t st evs).settled = true ∧ (run t st evs).outcome = st.outcome ∧
    (run t st evs).kills = st.kills := by
  induction evs generalizing st with
  | nil => exact ⟨hs, rfl, rfl⟩
  | cons e rest ih =>
    have h := step_preserves_settled_fields t st e hs
    have h' := ih (step t st e) h.1
    exact ⟨h'.1, h'.2.1.trans h.2.1, h'.2.2.trans h.2.2⟩

theorem step_nonterminal_fields (t : Int) (st : State) (e : Event)
    (he : isTerminal e = false) :
    (step t st e).settled = st.settled ∧ (step t st e).outcome = st.outcome ∧
    (step t st e).kills = st.kills ∧ (step t st e).timeoutCleared = st.timeoutCleared := by
  cases e <;> simp_all [step, isTerminal]

theorem run_nonterminal_fields (t : Int) (st : State) (evs : List Event)
    (h : ∀ e ∈ evs, isTerminal e = false) :
    (run t st evs).settled = st.settled ∧ (run t st evs).outcome = st.outcome ∧
    (run t st evs).kills = st.kills ∧ (run t st evs).timeoutCleared = st.timeoutCleared := by
  induction evs generalizing st with
  | nil => exact ⟨rfl, rfl, rfl, rfl⟩
  | cons e rest ih =>
    have he := h e (List.mem_cons_self e rest)
    have h1 := step_nonterminal_fields t st e he
    have h' := ih (step t st e) (fun e' he' => h e' (List.mem_cons_of_mem e he'))
    exact ⟨h'.1.trans h1.1, h'.2.1.trans h1.2.1, h'.2.2.1.trans h1.2.2.1,
      h'.2.2.2.trans h1.2.2.2⟩

/-! ## Claim theorems -/

/-- C9: for every value of the `OMC_CODEX_TIMEOUT` environment
variable, `CODEX_TIMEOUT` lies in `[5000, 600000]` milliseconds, and
when the variable is unset it is exactly `180000`. -/
theorem CODEX_TIMEOUT_clamped (env : Option String) :
    5000 ≤ CODEX_TIMEOUT env ∧ CODEX_TIMEOUT env ≤ 600000 ∧
    CODEX_TIMEOUT none = 180000 := by
  refine ⟨?_, ?_, by decide⟩
  · exact le_min (le_max_left _ _) (by norm_num)
  · exact min_le_right _ _

/-- C5: `parseCodexOutput` splits on line boundaries, discards blank
and non-JSON lines, captures string `message` content, the text of
each `text`-typed part of array content in order, and `output_text`
text, joining the fragments with newlines in encounter order; in
particular the spec's example input yields `"hi\nthere"`. -/
theorem parseCodexOutput_extracts_fragments :
    parseCodexOutput
        "\x7b\"type\":\"message\",\"content\":\"hi\"\x7d\n\x7b\"type\":\"output_text\",\"text\":\"there\"\x7d"
      = "hi\nthere" ∧
    parseCodexOutput
        "noise line\n\n\x7b\"type\":\"message\",\"content\":[\x7b\"type\":\"text\",\"text\":\"a\"\x7d,\x7b\"type\":\"text\",\"text\":\"b\"\x7d]\x7d\n\x7b\"type\":\"reasoning\",\"content\":\"skip\"\x7d\n\x7b\"type\":\"output_text\",\"text\":\"c\"\x7d"
      = "a\nb\nc" := by
  constructor <;> decide

/-- C6: on input consisting solely of lines that do not decode as
JSON, `parseCodexOutput` is the identity: the raw input is returned
unchanged. -/
theorem parseCodexOutput_non_json_identity (output : String)
    (h : ∀ l ∈ codexLines output, (jsonParse l).isNone = true) :
    parseCodexOutput output = output := by
  unfold parseCodexOutput
  have hcap : ∀ l ∈ codexLines output, captureLine l = [] := by
    intro l hl
    unfold captureLine
    rcases Option.isNone_iff_eq_none.mp (h l hl) with hnone
    rw [hnone]
  rw [flatten_map_eq_nil captureLine (codexLines output) hcap]
  rfl

/-- Witness for C6 at a concrete all-plain-text input. -/
theorem parseCodexOutput_non_json_identity_witness :
    (∀ l ∈ codexLines "hello engine\nstill thinking...", (jsonParse l).isNone = true) ∧
    parseCodexOutput "hello engine\nstill thinking..." = "hello engine\nstill thinking..." :=
  ⟨by decide, parseCodexOutput_non_json_identity "hello engine\nstill thinking..." (by decide)⟩

/-- C10: `parseCodexOutput` falls back to the raw input whenever no
decoded event contributes a fragment (empty-string content and text
fields are skipped by the truthiness checks); in particular the empty
input yields the empty string. -/
theorem parseCodexOutput_fallback_no_fragments (output : String)
    (h : ∀ l ∈ codexLines output, captureLine l = []) :
    parseCodexOutput output = output ∧ parseCodexOutput "" = "" := by
  constructor
  · unfold parseCodexOutput
    rw [flatten_map_eq_nil captureLine (codexLines output) h]
    rfl
  · decide

/-- Witness for C10 at an input whose only event decodes but carries an
empty-string `content`, skipped by the truthiness check. -/
theorem parseCodexOutput_fallback_no_fragments_witness :
    (∀ l ∈ codexLines "\x7b\"type\":\"message\",\"content\":\"\"\x7d", captureLine l = []) ∧
    (parseCodexOutput "\x7b\"type\":\"message\",\"content\":\"\"\x7d"
        = "\x7b\"type\":\"message\",\"content\":\"\"\x7d" ∧
      parseCodexOutput "" = "") :=
  ⟨by decide,
    parseCodexOutput_fallback_no_fragments "\x7b\"type\":\"message\",\"content\":\"\"\x7d" (by decide)⟩

/-- C1: an `executeCodex` invocation settles exactly once.  Over every
delivery order (`pre` non-terminal events, then the first terminal
event `e`, then arbitrary events `post`): nothing settles before `e`;
`e` performs the transition and produces the outcome; the settlement is
unchanged by everything after `e`; and on a settled state every
terminal handler is a no-op (the `settled` flag is checked before every
transition). -/
theorem executeCodex_settles_exactly_once (t : Int) (pre post : List Event) (e : Event)
    (hpre : ∀ e' ∈ pre, isTerminal e' = false) (he : isTerminal e = true) :
    (run t initState pre).settled = false ∧
    (step t (run t initState pre) e).settled = true ∧
    (step t (run t initState pre) e).outcome.isSome = true ∧
    (run t initState (pre ++ e :: post)).settled = true ∧
    (run t initState (pre ++ e :: post)).outcome = (step t (run t initState pre) e).outcome ∧
    (run t initState (pre ++ e :: post)).kills = (step t (run t initState pre) e).kills ∧
    (∀ st : State, st.settled = true → ∀ e' : Event, isTerminal e' = true →
      step t st e' = st) := by
  have hunsettled : (run t initState pre).settled = false :=
    (run_nonterminal_fields t initState pre hpre).1
  have hstep : (step t (run t initState pre) e).settled = true ∧
      (step t (run t initState pre) e).outcome.isSome = true := by
    cases e <;> simp_all [step, isTerminal]
  have hrun : run t initState (pre ++ e :: post)
      = run t (step t (run t initState pre) e) post := by
    rw [run_append]; rfl
  have hpost := run_preserves_settled_fields t (step t (run t initState pre) e) post hstep.1
  refine ⟨hunsettled, hstep.1, hstep.2, ?_, ?_, ?_, ?_⟩
  · rw [hrun]; exact hpost.1
  · rw [hrun]; exact hpost.2.1
  · rw [hrun]; exact hpost.2.2
  · exact fun st hs e' ht => step_settled_terminal t st e' hs ht

/-- Witness for C1: a close races a later timeout; the close settles,
the timeout is a no-op. -/
theorem executeCodex_settles_exactly_once_witness :
    ((∀ e' ∈ [Event.stdoutData "plain text"], isTerminal e' = false) ∧
      isTerminal (Event.close (some 0)) = true) ∧
    (run 180000 initState
        [Event.stdoutData "plain text", Event.close (some 0), Event.timeout]).settled = true ∧
    (run 180000 initState
        [Event.stdoutData "plain text", Event.close (some 0), Event.timeout]).outcome
      = some (Outcome.resolved "plain text") := by
  have h := executeCodex_settles_exactly_once 180000 [Event.stdoutData "plain text"]
    [Event.timeout] (Event.close (some 0)) (by decide) (by decide)
  refine ⟨⟨by decide, by decide⟩, ?_, ?_⟩
  · have := h.2.2.2.1
    simpa using this
  · have := h.2.2.2.2.1
    simp only [List.singleton_append] at this
    rw [this]
    decide

/-- C2: when the child closes before any other terminal event, the
invocation resolves with `parseCodexOutput` of the captured stdout iff
the exit code is zero or the captured stdout is non-empty after
trimming, and otherwise rejects with a message carrying the exit code
and the captured stderr (or `No output` when none was captured). -/
theorem executeCodex_close_policy (t : Int) (pre post : List Event) (code : Option Int)
    (hpre : ∀ e' ∈ pre, isTerminal e' = false) :
    ((code = some 0 ∨ jsTrim (run t initState pre).stdout ≠ "") →
      (run t initState (pre ++ Event.close code :: post)).outcome
        = some (.resolved (parseCodexOutput (run t initState pre).stdout))) ∧
    (¬ (code = some 0 ∨ jsTrim (run t initState pre).stdout ≠ "") →
      (run t initState (pre ++ Event.close code :: post)).outcome
        = some (.rejected ("Codex exited with code " ++ codeToString code ++ ": " ++
            (if (run t initState pre).stderr = "" then "No output"
             else (run t initState pre).stderr)))) := by
  have hunsettled : (run t initState pre).settled = false :=
    (run_nonterminal_fields t initState pre hpre).1
  have hrun : run t initState (pre ++ Event.close code :: post)
      = run t (step t (run t initState pre) (Event.close code)) post := by
    rw [run_append]; rfl
  have hstep : (step t (run t initState pre) (Event.close code)).settled = true ∧
      (step t (run t initState pre) (Event.close code)).outcome
        = some (closeOutcome code (run t initState pre).stdout (run t initState pre).stderr) := by
    simp [step, hunsettled]
  have hpost := run_preserves_settled_fields t
    (step t (run t initState pre) (Event.close code)) post hstep.1
  constructor
  · intro hcond
    rw [hrun, hpost.2.1, hstep.2]
    unfold closeOutcome
    rw [if_pos hcond]
  · intro hcond
    rw [hrun, hpost.2.1, hstep.2]
    unfold closeOutcome
    rw [if_neg hcond]

/-- Witness for C2: a non-zero exit with non-empty stdout resolves
(the partial-output branch), evaluated concretely. -/
theorem executeCodex_close_policy_witness :
    ((∀ e' ∈ [Event.stdoutData "\x7b\"type\":\"output_text\",\"text\":\"ok\"\x7d"],
        isTerminal e' = false) ∧
      (some 1 = some 0 ∨
        jsTrim (run 180000 initState
          [Event.stdoutData "\x7b\"type\":\"output_text\",\"text\":\"ok\"\x7d"]).stdout ≠ "")) ∧
    (run 180000 initState
        [Event.stdoutData "\x7b\"type\":\"output_text\",\"text\":\"ok\"\x7d",
         Event.close (some 1)]).outcome
      = some (Outcome.resolved "ok") := by
  have h := (executeCodex_close_policy 180000
    [Event.stdoutData "\x7b\"type\":\"output_text\",\"text\":\"ok\"\x7d"] [] (some 1)
    (by decide)).1 (by decide)
  refine ⟨⟨by decide, by decide⟩, ?_⟩
  simp only [List.singleton_append] at h
  rw [h]
  decide

/-- C3: when the timeout fires before any other terminal event, the
invocation sends the child exactly one `SIGTERM` — never two — and
rejects with a message naming the configured `CODEX_TIMEOUT`
duration. -/
theorem executeCodex_timeout_kills_once (env : Option String) (pre post : List Event)
    (hpre : ∀ e' ∈ pre, isTerminal e' = false) :
    (run (CODEX_TIMEOUT env) initState (pre ++ Event.timeout :: post)).kills
      = ["SIGTERM"] ∧
    (run (CODEX_TIMEOUT env) initState (pre ++ Event.timeout :: post)).outcome
      = some (.rejected
          ("Codex timed out after " ++ toString (CODEX_TIMEOUT env) ++ "ms")) ∧
    (run (CODEX_TIMEOUT env) initState (pre ++ Event.timeout :: post)).settled = true := by
  set t := CODEX_TIMEOUT env
  have hfields := run_nonterminal_fields t initState pre hpre
  have hrun : run t initState (pre ++ Event.timeout :: post)
      = run t (step t (run t initState pre) Event.timeout) post := by
    rw [run_append]; rfl
  have hstep : (step t (run t initState pre) Event.timeout).settled = true ∧
      (step t (run t initState pre) Event.timeout).kills = ["SIGTERM"] ∧
      (step t (run t initState pre) Event.timeout).outcome
        = some (.rejected ("Codex timed out after " ++ toString t ++ "ms")) := by
    have hs : (run t initState pre).settled = false := hfields.1.trans rfl
    have hk : (run t initState pre).kills = [] := hfields.2.2.1.trans rfl
    simp [step, hs, hk]
  have hpost := run_preserves_settled_fields t
    (step t (run t initState pre) Event.timeout) post hstep.1
  exact ⟨by rw [hrun, hpost.2.2, hstep.2.1],
    by rw [hrun, hpost.2.1, hstep.2.2], by rw [hrun]; exact hpost.1⟩

/-- Witness for C3: the timer fires first, a late close and a stray
second timer event change nothing; exactly one `SIGTERM` is sent. -/
theorem executeCodex_timeout_kills_once_witness :
    (∀ e' ∈ [Event.stderrData "warming up"], isTerminal e' = false) ∧
    ((run (CODEX_TIMEOUT (some "60000")) initState
        [Event.stderrData "warming up", Event.timeout, Event.close (some 0),
         Event.timeout]).kills = ["SIGTERM"] ∧
      (run (CODEX_TIMEOUT (some "60000")) initState
        [Event.stderrData "warming up", Event.timeout, Event.close (some 0),
         Event.timeout]).outcome
        = some (Outcome.rejected "Codex timed out after 60000ms")) := by
  have h := executeCodex_timeout_kills_once (some "60000") [Event.stderrData "warming up"]
    [Event.close (some 0), Event.timeout] (by decide)
  refine ⟨by decide, ?_, ?_⟩
  · have := h.1
    simpa using this
  · have := h.2.1
    simp only [List.singleton_append] at this
    rw [this]
    decide

/-- C7: `validateAndReadFile` never throws; for every filesystem it
returns exactly one of the four described blocks — `(Invalid path
type)` for a non-string path, `(Not a regular file)` when the stat
succeeds but reports a non-file, `(Error reading file)` on any
resolve/stat/read failure, and otherwise a header naming the original
path followed by the file contents. -/
theorem validateAndReadFile_fault_containment (fs : FsEnv) :
    (∀ d, validateAndReadFile fs (.nonString d)
      = "--- File: " ++ d ++ " --- (Invalid path type)") ∧
    (∀ p, fs.resolve p = none →
      validateAndReadFile fs (.str p)
        = "--- File: " ++ p ++ " --- (Error reading file)") ∧
    (∀ p r, fs.resolve p = some r → fs.stat r = none →
      validateAndReadFile fs (.str p)
        = "--- File: " ++ p ++ " --- (Error reading file)") ∧
    (∀ p r st, fs.resolve p = some r → fs.stat r = some st → st.isFile = false →
      validateAndReadFile fs (.str p)
        = "--- File: " ++ p ++ " --- (Not a regular file)") ∧
    (∀ p r st, fs.resolve p = some r → fs.stat r = some st → st.isFile = true →
      st.size ≤ MAX_FILE_SIZE → fs.read r = none →
      validateAndReadFile fs (.str p)
        = "--- File: " ++ p ++ " --- (Error reading file)") ∧
    (∀ p r st content, fs.resolve p = some r → fs.stat r = some st →
      st.isFile = true → st.size ≤ MAX_FILE_SIZE → fs.read r = some content →
      validateAndReadFile fs (.str p)
        = "--- File: " ++ p ++ " ---\n" ++ content) := by
  refine ⟨fun d => rfl, ?_, ?_, ?_, ?_, ?_⟩
  · intro p h1
    simp [validateAndReadFile, h1]
  · intro p r h1 h2
    simp [validateAndReadFile, h1, h2]
  · intro p r st h1 h2 h3
    simp [validateAndReadFile, h1, h2, h3]
  · intro p r st h1 h2 h3 h4 h5
    have hsize : ¬ st.size > MAX_FILE_SIZE := by omega
    simp [validateAndReadFile, h1, h2, h3, hsize, h5]
  · intro p r st content h1 h2 h3 h4 h5
    have hsize : ¬ st.size > MAX_FILE_SIZE := by omega
    simp [validateAndReadFile, h1, h2, h3, hsize, h5]

/-- Witness for C7: a readable regular file yields the header block
with its contents. -/
theorem validateAndReadFile_fault_containment_witness :
    ((fun (p : String) => some p) "notes.txt" = some "notes.txt" ∧
      (fun (_ : String) => some (FileStats.mk true 3)) "notes.txt"
        = some (FileStats.mk true 3)) ∧
    validateAndReadFile
        ⟨fun p => some p, fun _ => some (FileStats.mk true 3), fun _ => some "abc"⟩
        (.str "notes.txt")
      = "--- File: notes.txt ---\nabc" := by
  refine ⟨⟨rfl, rfl⟩, ?_⟩
  exact (validateAndReadFile_fault_containment
    ⟨fun p => some p, fun _ => some (FileStats.mk true 3), fun _ => some "abc"⟩).2.2.2.2.2
    "notes.txt" "notes.txt" (FileStats.mk true 3) "abc" rfl rfl rfl (by decide) rfl

/-- C8: a regular file whose size exceeds the 5 MiB cap yields the
too-large placeholder carrying the size in MiB to one decimal place and
the cap; the conclusion holds for every `read` component of the
environment, so the file's content is never read. -/
theorem validateAndReadFile_size_cap (resolveF : String → Option String)
    (statF : String → Option FileStats) (readF : String → Option String)
    (p r : String) (st : FileStats)
    (h1 : resolveF p = some r) (h2 : statF r = some st)
    (h3 : st.isFile = true) (h4 : st.size > MAX_FILE_SIZE) :
    validateAndReadFile ⟨resolveF, statF, readF⟩ (.str p)
      = "--- File: " ++ p ++ " --- (File too large: " ++
        sizeToFixed1 st.size ++ "MB, max 5MB)" := by
  simp [validateAndReadFile, h1, h2, h3, h4]

/-- Witness for C8: a 6 MiB file renders as `6.0MB`, for every read
function. -/
theorem validateAndReadFile_size_cap_witness :
    ((fun (p : String) => some p) "big.bin" = some "big.bin" ∧
      (fun (_ : String) => some (FileStats.mk true 6291456)) "big.bin"
        = some (FileStats.mk true 6291456) ∧ 6291456 > MAX_FILE_SIZE) ∧
    validateAndReadFile
        ⟨fun p => some p, fun _ => some (FileStats.mk true 6291456),
          fun _ => some "should never be read"⟩
        (.str "big.bin")
      = "--- File: big.bin --- (File too large: 6.0MB, max 5MB)" := by
  refine ⟨⟨rfl, rfl, by decide⟩, ?_⟩
  exact (validateAndReadFile_size_cap (fun p => some p)
    (fun _ => some (FileStats.mk true 6291456)) (fun _ => some "should never be read")
    "big.bin" "big.bin" (FileStats.mk true 6291456) rfl rfl rfl (by decide)).trans
    (by decide)

/-- Whether `pat` occurs as a contiguous substring of `s`. -/
def strContains (s pat : String) : Bool :=
  let cs := s.toList
  let ps := pat.toList
  (List.range (cs.length + 1)).any (fun i => (cs.drop i).take ps.length = ps)

/-- Counterexample to C4 as stated: a request with 21 context files
and an invalid `agent_role` gets the role failure, whose message names
neither the maximum (20) nor the count (21) — the role check runs
before the context-file check. -/
theorem handleAskCodex_over_limit_message_not_universal :
    (handleAskCodex
        ⟨"gpt-5.2", ⟨true, "", ""⟩, fun _ => "",
          ⟨fun p => some p, fun _ => none, fun _ => none⟩, fun _ _ => .ok "done"⟩
        ⟨"p", "bogus", none, some (List.replicate 21 (JsPath.str "f.txt"))⟩).isError
      = true ∧
    (handleAskCodex
        ⟨"gpt-5.2", ⟨true, "", ""⟩, fun _ => "",
          ⟨fun p => some p, fun _ => none, fun _ => none⟩, fun _ _ => .ok "done"⟩
        ⟨"p", "bogus", none, some (List.replicate 21 (JsPath.str "f.txt"))⟩).content
      = [⟨"text", "Invalid agent_role: \"bogus\". Codex requires one of: " ++
          "architect, planner, critic, code-reviewer, security-reviewer"⟩] ∧
    (∀ b ∈ (handleAskCodex
        ⟨"gpt-5.2", ⟨true, "", ""⟩, fun _ => "",
          ⟨fun p => some p, fun _ => none, fun _ => none⟩, fun _ _ => .ok "done"⟩
        ⟨"p", "bogus", none, some (List.replicate 21 (JsPath.str "f.txt"))⟩).content,
      strContains b.text "20" = false ∧ strContains b.text "21" = false) := by
  refine ⟨by decide, by decide, by decide⟩

/-- C4 (amended): for every request with a valid `agent_role` and an
available CLI whose `context_files` list is longer than 20,
`handleAskCodex` fails with the message naming the maximum and the
actual count; the response is the same for every filesystem (and every
engine), so no filesystem access is performed. -/
theorem handleAskCodex_too_many_files (env : ToolEnv) (args : AskArgs)
    (files : List JsPath)
    (hrole : CODEX_VALID_ROLES.contains args.agent_role = true)
    (hdet : env.detection.available = true)
    (hfiles : args.context_files = some files)
    (hlen : files.length > MAX_CONTEXT_FILES) :
    handleAskCodex env args =
      { content := [⟨"text",
          "Too many context files (max " ++ toString MAX_CONTEXT_FILES ++
          ", got " ++ toString files.length ++ ")"⟩]
        isError := true } := by
  have hne : ¬ (args.agent_role = "" ∨ ¬ CODEX_VALID_ROLES.contains args.agent_role) := by
    rintro (h | h)
    · rw [h] at hrole
      exact absurd hrole (by decide)
    · exact h hrole
  have hmax : MAX_CONTEXT_FILES = 20 := rfl
  have h0 : files.length > 0 := by omega
  unfold handleAskCodex
  rw [if_neg hne, if_neg (fun h => h hdet), hfiles]
  simp only [if_pos h0, if_pos hlen]

/-- Witness for C4 (amended): a valid role with 21 context files and no
other obstacle yields exactly the counted failure message. -/
theorem handleAskCodex_too_many_files_witness :
    (CODEX_VALID_ROLES.contains "architect" = true ∧
      (List.replicate 21 (JsPath.str "f.txt")).length > MAX_CONTEXT_FILES) ∧
    handleAskCodex
        ⟨"gpt-5.2", ⟨true, "", ""⟩, fun _ => "",
          ⟨fun p => some p, fun _ => none, fun _ => none⟩, fun _ _ => .ok "done"⟩
        ⟨"p", "architect", none, some (List.replicate 21 (JsPath.str "f.txt"))⟩
      = { content := [⟨"text", "Too many context files (max 20, got 21)"⟩]
          isError := true } := by
  refine ⟨⟨by decide, by decide⟩, ?_⟩
  exact (handleAskCodex_too_many_files
    ⟨"gpt-5.2", ⟨true, "", ""⟩, fun _ => "",
      ⟨fun p => some p, fun _ => none, fun _ => none⟩, fun _ _ => .ok "done"⟩
    ⟨"p", "architect", none, some (List.replicate 21 (JsPath.str "f.txt"))⟩
    (List.replicate 21 (JsPath.str "f.txt"))
    (by decide) rfl rfl (by decide)).trans (by decide)

end CodexCore
